import Mathlib

/-!
# Verification of the aws-postgress-mcp-server core

Shallow embedding of `src/unnamed/part_001` (the current server source:
the read-only SQL classifier, the call-tool dispatcher and the resource
URI router / read-resource handler), with theorems settling the frozen
claims about it.

Modelling conventions:
* JS strings are modelled as `String` / `List Char` (Unicode scalar
  values; lone UTF-16 surrogates are not representable and play no role
  in any claim).
* The JS regexes `/^\s*KEYWORD\s/i` are embedded as explicit matching
  functions over `List Char`; `\s` is the ECMAScript whitespace class
  (`jsSpace` below), and the `/i` flag is ASCII case folding (for a
  non-`u` regex a non-ASCII character never canonicalises onto an ASCII
  pattern character, which `Char.toUpper` reproduces exactly).
* The connection pool (`pg.Pool.query`) is an injected `Gateway`
  parameter returning `Except`; database values are modelled as text.
* The database name interpolated into `tableUriPattern` is assumed to
  contain no regex metacharacters, so the pattern is the literal prefix
  followed by `([^/]+)/table/([^/]+)$`.
-/

namespace AwsPg

/-- The ECMAScript `\s` character class (WhiteSpace ∪ LineTerminator),
used by the `/^\s*…\s/i` patterns of `part_001` lines 34-52 (the `\\s` character set). -/
def jsSpaceChars : List Char :=
  [' ', '\t', '\n', '\x0b', '\x0c', '\r', '\xa0', '\u1680', '\u2000', '\u2001', '\u2002', '\u2003', '\u2004', '\u2005', '\u2006', '\u2007', '\u2008', '\u2009', '\u200A', '\u2028', '\u2029', '\u202F', '\u205F', '\u3000', '\uFEFF']

/-- The ECMAScript whitespace test: membership in `jsSpaceChars`. -/
def jsSpace (c : Char) : Bool :=
  jsSpaceChars.contains c

/-- Match the keyword (case-insensitively, via ASCII upper-casing) followed
by one `\s` character, at the head of the text: the `KEYWORD\s` part of a
pattern `/^\s*KEYWORD\s/i`. -/
def matchKwSpace : List Char → List Char → Bool
  | [], [] => false
  | [], c :: _ => jsSpace c
  | _ :: _, [] => false
  | k :: ks, c :: cs => (c.toUpper == k) && matchKwSpace ks cs

/-- `/^\s*KEYWORD\s/i.test s`: since every keyword starts with a letter
(never in `\s`), the greedy `\s*` is exactly `dropWhile jsSpace`. -/
def testPattern (kw : List Char) (s : List Char) : Bool :=
  matchKwSpace kw (s.dropWhile jsSpace)

/-- The ALLOW set (`READ_ONLY_PATTERNS`, part_001 lines 34-40), each
entry standing for `/^\s*KW\s/i`. -/
def READ_ONLY_PATTERNS : List (List Char) :=
  ["SELECT".data, "WITH".data, "SHOW".data, "DESCRIBE".data, "EXPLAIN".data]

/-- The DENY set (`WRITE_PATTERNS`, part_001 lines 42-52). -/
def WRITE_PATTERNS : List (List Char) :=
  ["INSERT".data, "UPDATE".data, "DELETE".data, "DROP".data, "CREATE".data,
   "ALTER".data, "TRUNCATE".data, "GRANT".data, "REVOKE".data]

/-- `isReadOnlyQuery` (part_001 lines 59-68): some ALLOW pattern matches
and no DENY pattern matches. -/
def isReadOnlyQuery (sql : String) : Bool :=
  let isReadOnly := READ_ONLY_PATTERNS.any fun p => testPattern p sql.data
  let isWrite := WRITE_PATTERNS.any fun p => testPattern p sql.data
  isReadOnly && !isWrite

/-- Specification-level reading of one pattern `/^\s*KW\s/i` matching `s`:
some split of `s` into optional leading whitespace, the keyword written in
any case, and a whitespace character followed by the rest. This is the
backtracking regex semantics, unconstrained by any maximal-munch choice. -/
def matchesPrefixPattern (kw : List Char) (s : List Char) : Prop :=
  ∃ sp u c rest, s = sp ++ u ++ c :: rest ∧ (∀ x ∈ sp, jsSpace x = true) ∧
    u.map Char.toUpper = kw ∧ jsSpace c = true

/-- A JS whitespace character is unchanged by ASCII upper-casing. -/
lemma jsSpace_toUpper (c : Char) (h : jsSpace c = true) : Char.toUpper c = c := by
  have hm : c ∈ jsSpaceChars := by simpa [jsSpace] using h
  fin_cases hm <;> decide

/-- Whitespace never upper-cases onto a non-whitespace character. -/
lemma toUpper_ne_of_jsSpace (c k : Char) (hc : jsSpace c = true)
    (hk : jsSpace k = false) : Char.toUpper c ≠ k := by
  intro h
  rw [jsSpace_toUpper c hc] at h
  subst h
  rw [hc] at hk
  exact Bool.noConfusion hk

/-- Characterisation of `matchKwSpace`: the text splits as the keyword
(in any case) then a whitespace character then anything. -/
lemma matchKwSpace_iff (kw : List Char) : ∀ cs : List Char,
    matchKwSpace kw cs = true ↔
      ∃ u c rest, cs = u ++ c :: rest ∧ u.map Char.toUpper = kw ∧ jsSpace c = true := by
  induction kw with
  | nil =>
    intro cs
    cases cs with
    | nil =>
      simp only [matchKwSpace]
      constructor
      · intro h; exact Bool.noConfusion h
      · rintro ⟨u, c, rest, h, hu, -⟩
        rw [List.map_eq_nil_iff] at hu
        subst hu
        exact (List.noConfusion h)
    | cons c cs =>
      simp only [matchKwSpace]
      constructor
      · intro h; exact ⟨[], c, cs, rfl, rfl, h⟩
      · rintro ⟨u, c', rest, h, hu, hc⟩
        rw [List.map_eq_nil_iff] at hu
        subst hu
        rw [List.nil_append] at h
        cases h
        exact hc
  | cons k ks ih =>
    intro cs
    cases cs with
    | nil =>
      simp only [matchKwSpace]
      constructor
      · intro h; exact Bool.noConfusion h
      · rintro ⟨u, c, rest, h, -, -⟩
        exact (List.noConfusion (List.append_eq_nil.mp h.symm).2)
    | cons c cs =>
      simp only [matchKwSpace, Bool.and_eq_true, beq_iff_eq, ih]
      constructor
      · rintro ⟨hck, u, c', rest, rfl, hu, hc'⟩
        exact ⟨c :: u, c', rest, rfl, by simp [hck, hu], hc'⟩
      · rintro ⟨u, c', rest, h, hu, hc'⟩
        cases u with
        | nil => simp at hu
        | cons u0 u' =>
          rw [List.map_cons] at hu
          injection hu with hu0 hu'
          rw [List.cons_append] at h
          injection h with h0 hrest
          subst h0
          exact ⟨hu0, u', c', rest, hrest, hu', hc'⟩

/-- Dropping whitespace commutes past an all-whitespace block. -/
lemma dropWhile_append_all (p : Char → Bool) (sp l : List Char)
    (h : ∀ x ∈ sp, p x = true) :
    (sp ++ l).dropWhile p = l.dropWhile p := by
  induction sp with
  | nil => rfl
  | cons x xs ih =>
    rw [List.cons_append, List.dropWhile_cons]
    rw [h x (by simp)]
    exact ih fun y hy => h y (by simp [hy])

/-- Everything `takeWhile` keeps satisfies the predicate. -/
lemma mem_takeWhile_sat (p : Char → Bool) : ∀ (l : List Char) (x : Char),
    x ∈ l.takeWhile p → p x = true := by
  intro l
  induction l with
  | nil => intro x hx; simp [List.takeWhile] at hx
  | cons a l ih =>
    intro x hx
    rw [List.takeWhile_cons] at hx
    by_cases ha : p a = true
    · rw [if_pos ha] at hx
      rcases List.mem_cons.mp hx with rfl | hx
      · exact ha
      · exact ih x hx
    · rw [if_neg ha] at hx
      exact absurd hx (List.not_mem_nil x)

/-- The boolean test of one whole pattern agrees with the specification
reading, for a keyword whose first letter cannot be reached by
upper-casing whitespace (true of all fourteen keywords). -/
lemma testPattern_iff_matches (kw : List Char) (s : List Char) (hne : kw ≠ [])
    (hk : ∀ c, jsSpace c = true → Char.toUpper c ≠ kw.headI) :
    testPattern kw s = true ↔ matchesPrefixPattern kw s := by
  cases kw with
  | nil => exact absurd rfl hne
  | cons k ks =>
    simp only [List.headI] at hk
    constructor
    · intro h
      rw [testPattern, matchKwSpace_iff] at h
      obtain ⟨u, c, rest, hdrop, hu, hc⟩ := h
      refine ⟨s.takeWhile jsSpace, u, c, rest, ?_, ?_, hu, hc⟩
      · conv_lhs => rw [← List.takeWhile_append_dropWhile (p := jsSpace) (l := s)]
        rw [hdrop, List.append_assoc]
      · exact fun x hx => mem_takeWhile_sat jsSpace s x hx
    · rintro ⟨sp, u, c, rest, hs, hsp, hu, hc⟩
      rw [testPattern, matchKwSpace_iff]
      cases u with
      | nil => simp at hu
      | cons u0 u' =>
        rw [List.map_cons] at hu
        injection hu with hu0 hu'
        have hu0s : jsSpace u0 = false := by
          by_contra hcon
          rw [Bool.not_eq_false] at hcon
          exact hk u0 hcon hu0
        refine ⟨u0 :: u', c, rest, ?_, by simp [hu0, hu'], hc⟩
        rw [hs, List.append_assoc, dropWhile_append_all jsSpace sp _ hsp]
        rw [List.cons_append, List.dropWhile_cons, hu0s]
        simp

/-- The fourteen keywords are nonempty and start with a non-whitespace
letter. -/
lemma pattern_facts :
    (∀ kw ∈ READ_ONLY_PATTERNS, kw ≠ [] ∧ jsSpace kw.headI = false) ∧
    (∀ kw ∈ WRITE_PATTERNS, kw ≠ [] ∧ jsSpace kw.headI = false) := by
  decide

/-- No ALLOW keyword is a proper prefix of another ALLOW keyword. -/
lemma allow_allow_prefix_eq :
    ∀ k1 ∈ READ_ONLY_PATTERNS, ∀ k2 ∈ READ_ONLY_PATTERNS,
      (k1 <+: k2 ∨ k2 <+: k1) → k1 = k2 := by
  decide

/-- No ALLOW keyword is prefix-comparable with a DENY keyword. -/
lemma allow_deny_not_prefix :
    ∀ k1 ∈ READ_ONLY_PATTERNS, ∀ k2 ∈ WRITE_PATTERNS,
      ¬ (k1 <+: k2 ∨ k2 <+: k1) := by
  decide

/-- If a keyword pattern fires on text that starts with (the any-case
spelling of) a keyword `kw0`, then the pattern's keyword and `kw0` are
prefix-comparable; and when they are the same keyword, the character right
after it must be whitespace. -/
lemma matchKwSpace_aligned (kw kw0 u rest : List Char)
    (hu : u.map Char.toUpper = kw0)
    (h : matchKwSpace kw (u ++ rest) = true) :
    (kw <+: kw0 ∨ kw0 <+: kw) ∧
      (kw = kw0 → ∃ c rest', rest = c :: rest' ∧ jsSpace c = true) := by
  rw [matchKwSpace_iff] at h
  obtain ⟨v, c, rest', hsplit, hv, hc⟩ := h
  have hpre : u <+: v ∨ v <+: u :=
    List.prefix_or_prefix_of_prefix (List.prefix_append u rest) ⟨c :: rest', hsplit.symm⟩
  constructor
  · rcases hpre with hp | hp
    · right
      rw [← hu, ← hv]
      exact hp.map Char.toUpper
    · left
      rw [← hu, ← hv]
      exact hp.map Char.toUpper
  · intro heq
    have hlen : u.length = v.length := by
      have h1 : u.length = kw0.length := by rw [← hu, List.length_map]
      have h2 : v.length = kw.length := by rw [← hv, List.length_map]
      rw [h1, h2, heq]
    have huv : u = v := by
      rcases hpre with hp | hp
      · exact hp.eq_of_length hlen
      · exact (hp.eq_of_length hlen.symm).symm
    subst huv
    refine ⟨c, rest', ?_, hc⟩
    exact List.append_cancel_left hsplit

/-- If no ALLOW pattern fires, the classifier rejects. -/
lemma isReadOnlyQuery_false_of_no_allow (sql : String)
    (h : ∀ kw ∈ READ_ONLY_PATTERNS, testPattern kw sql.data = false) :
    isReadOnlyQuery sql = false := by
  have hro : (READ_ONLY_PATTERNS.any fun p => testPattern p sql.data) = false := by
    rw [List.any_eq_false]
    intro x hx
    simp [h x hx]
  simp [isReadOnlyQuery, hro]

/-- A statement whose whitespace-stripped text starts with a DENY keyword
fires no ALLOW pattern (no ALLOW keyword is prefix-comparable with a DENY
keyword). -/
lemma no_allow_of_deny_start (sql : String) (sp u rest : List Char)
    (hsp : ∀ x ∈ sp, jsSpace x = true)
    (hkw : u.map Char.toUpper ∈ WRITE_PATTERNS)
    (hs : sql.data = sp ++ u ++ rest) :
    ∀ kw ∈ READ_ONLY_PATTERNS, testPattern kw sql.data = false := by
  intro kw hkwRO
  by_contra hcon
  rw [Bool.not_eq_false] at hcon
  have hu_ne : u ≠ [] := by
    intro h
    subst h
    exact absurd hkw (by decide)
  obtain ⟨u0, u', rfl⟩ : ∃ a l, u = a :: l := by
    cases u with
    | nil => exact absurd rfl hu_ne
    | cons a l => exact ⟨a, l, rfl⟩
  have hu0 : Char.toUpper u0 = ((u0 :: u').map Char.toUpper).headI := rfl
  have hu0s : jsSpace u0 = false := by
    by_contra hsp0
    rw [Bool.not_eq_false] at hsp0
    have hup := jsSpace_toUpper u0 hsp0
    have hhead := (pattern_facts.2 _ hkw).2
    rw [← hu0, hup] at hhead
    rw [hsp0] at hhead
    exact Bool.noConfusion hhead
  have hdrop : sql.data.dropWhile jsSpace = (u0 :: u') ++ rest := by
    rw [hs, List.append_assoc, dropWhile_append_all jsSpace sp _ hsp]
    rw [List.cons_append, List.dropWhile_cons, hu0s]
    simp
  rw [testPattern, hdrop] at hcon
  have halign := matchKwSpace_aligned kw _ (u0 :: u') rest rfl hcon
  exact allow_deny_not_prefix kw hkwRO _ hkw halign.1

/-- C1: For every statement string `s`, the classifier returns ALLOWED iff
`s` matches at least one ALLOW prefix pattern (begins, after optional
leading whitespace, case-insensitively, with SELECT, WITH, SHOW, DESCRIBE
or EXPLAIN, each pattern requiring a whitespace character after the
keyword) and matches no DENY prefix pattern (same shape over INSERT,
UPDATE, DELETE, DROP, CREATE, ALTER, TRUNCATE, GRANT, REVOKE); otherwise
it returns REJECTED. `matchesPrefixPattern` is the backtracking-regex
reading of one pattern. -/
theorem classifier_allowed_iff_allow_and_no_deny (sql : String) :
    isReadOnlyQuery sql = true ↔
      ((∃ kw ∈ READ_ONLY_PATTERNS, matchesPrefixPattern kw sql.data) ∧
       ∀ kw ∈ WRITE_PATTERNS, ¬ matchesPrefixPattern kw sql.data) := by
  have hiff : ∀ kw, (kw ∈ READ_ONLY_PATTERNS ∨ kw ∈ WRITE_PATTERNS) →
      (testPattern kw sql.data = true ↔ matchesPrefixPattern kw sql.data) := by
    intro kw hkw
    have hprops : kw ≠ [] ∧ jsSpace kw.headI = false := by
      rcases hkw with h | h
      · exact pattern_facts.1 kw h
      · exact pattern_facts.2 kw h
    exact testPattern_iff_matches kw sql.data hprops.1
      (fun c hc => toUpper_ne_of_jsSpace c kw.headI hc hprops.2)
  simp only [isReadOnlyQuery, Bool.and_eq_true, Bool.not_eq_true',
    List.any_eq_true, List.any_eq_false]
  constructor
  · rintro ⟨⟨kw, hkw, ht⟩, hw⟩
    exact ⟨⟨kw, hkw, (hiff kw (Or.inl hkw)).mp ht⟩,
      fun kw2 hkw2 hm => (hw kw2 hkw2) ((hiff kw2 (Or.inr hkw2)).mpr hm)⟩
  · rintro ⟨⟨kw, hkw, hm⟩, hw⟩
    exact ⟨⟨kw, hkw, (hiff kw (Or.inl hkw)).mpr hm⟩,
      fun kw2 hkw2 ht => (hw kw2 hkw2) ((hiff kw2 (Or.inr hkw2)).mp ht)⟩

/-- C1 witness: `"  select 1"` (leading whitespace, lower case) is ALLOWED,
so by the characterisation it matches an ALLOW pattern. -/
theorem classifier_allowed_iff_witness :
    ∃ kw ∈ READ_ONLY_PATTERNS, matchesPrefixPattern kw "  select 1".data :=
  ((classifier_allowed_iff_allow_and_no_deny "  select 1").mp (by decide)).1

/-- C2: every statement that begins (after optional leading whitespace)
with a DENY-set keyword is REJECTED, even if ALLOW keywords appear later
in the text; and `"SELECT * FROM x; DROP TABLE y"` is ALLOWED under the
prefix-only policy even though a DENY keyword appears after the
semicolon. -/
theorem deny_start_rejected_and_prefix_only :
    (∀ (sql : String) (sp u rest : List Char),
        (∀ x ∈ sp, jsSpace x = true) →
        u.map Char.toUpper ∈ WRITE_PATTERNS →
        sql.data = sp ++ u ++ rest →
        isReadOnlyQuery sql = false) ∧
    isReadOnlyQuery "SELECT * FROM x; DROP TABLE y" = true := by
  constructor
  · intro sql sp u rest hsp hkw hs
    exact isReadOnlyQuery_false_of_no_allow sql (no_allow_of_deny_start sql sp u rest hsp hkw hs)
  · decide

/-- C2 witness: `"DROP TABLE users; SELECT 1"` starts with the DENY
keyword DROP and is REJECTED. -/
theorem deny_start_rejected_witness :
    isReadOnlyQuery "DROP TABLE users; SELECT 1" = false :=
  deny_start_rejected_and_prefix_only.1 "DROP TABLE users; SELECT 1"
    [] "DROP".data " TABLE users; SELECT 1".data (by decide) (by decide) (by decide)

/-- C9: a statement whose whitespace-stripped text begins with an ALLOW
keyword NOT immediately followed by a whitespace character is REJECTED
(each pattern requires `\s` right after the keyword); in particular
`"SELECT"`, `"SELECT*FROM t"` and `"EXPLAIN(ANALYZE) SELECT 1"` are all
REJECTED. -/
theorem allow_keyword_needs_trailing_space :
    (∀ (sql : String) (u rest : List Char),
        u.map Char.toUpper ∈ READ_ONLY_PATTERNS →
        sql.data.dropWhile jsSpace = u ++ rest →
        (∀ c, rest.head? = some c → jsSpace c = false) →
        isReadOnlyQuery sql = false) ∧
    isReadOnlyQuery "SELECT" = false ∧
    isReadOnlyQuery "SELECT*FROM t" = false ∧
    isReadOnlyQuery "EXPLAIN(ANALYZE) SELECT 1" = false := by
  refine ⟨?_, by decide, by decide, by decide⟩
  intro sql u rest hkw hdrop hrest
  apply isReadOnlyQuery_false_of_no_allow
  intro kw hkwRO
  by_contra hcon
  rw [Bool.not_eq_false] at hcon
  rw [testPattern, hdrop] at hcon
  have halign := matchKwSpace_aligned kw (u.map Char.toUpper) u rest rfl hcon
  have heq : kw = u.map Char.toUpper := allow_allow_prefix_eq kw hkwRO _ hkw halign.1
  obtain ⟨c, rest', hr, hc⟩ := halign.2 heq
  have hns := hrest c (by rw [hr]; rfl)
  rw [hns] at hc
  exact Bool.noConfusion hc

/-- C9 witness: `"SELECT*FROM t"` begins with SELECT not followed by
whitespace and is REJECTED, through the general statement. -/
theorem allow_keyword_needs_trailing_space_witness :
    isReadOnlyQuery "SELECT*FROM t" = false :=
  allow_keyword_needs_trailing_space.1 "SELECT*FROM t" "SELECT".data "*FROM t".data
    (by decide) (by decide)
    (fun c hc => by
      have : c = '*' := by
        have h' : some '*' = some c := hc
        exact (Option.some.inj h').symm
      rw [this]
      decide)

/-! ## Resource URI router and read-resource handler (part_001 lines 211-340) -/

/-- `schemasToExpose` (part_001 line 213). -/
def schemasToExpose : List (List Char) :=
  ["minrights".data, "public".data, "spatial".data, "ed_data".data,
   "data".data, "ose".data]

/-- `baseUriSchema` (line 214): `aws-pg://${dbName}/schema`. -/
def baseUriSchema (dbName : List Char) : List Char :=
  "aws-pg://".data ++ dbName ++ "/schema".data

/-- `schemaUriPrefix` (line 235): `${baseUriSchema}/`. -/
def schemaUriPre (dbName : List Char) : List Char :=
  baseUriSchema dbName ++ "/".data

/-- The literal `/table/` segment. -/
def tableSegment : List Char := "/table/".data

/-- Lines 229-233: strip exactly one leading `@` if present. -/
def strippedUri (u : List Char) : List Char :=
  if u.head? = some '@' then u.tail else u

/-- JS `hay.includes(needle)`: some suffix of `hay` starts with `needle`. -/
def hasInfix (needle : List Char) : List Char → Bool
  | [] => needle.isEmpty
  | c :: cs => needle.isPrefixOf (c :: cs) || hasInfix needle cs

/-- The `([^/]+)/table/([^/]+)$` part of `tableUriPattern` (line 290),
applied to the text after the prefix: the schema capture is the maximal
run of non-`/` characters (it must be nonempty and be followed by the
literal `/table/`), the table capture is the rest (nonempty, no `/`, up
to the end). -/
def matchTableRest (rest : List Char) : Option (List Char × List Char) :=
  let schemaPart := rest.takeWhile fun c => !(c == '/')
  let afterSchema := rest.dropWhile fun c => !(c == '/')
  if schemaPart.isEmpty then none
  else if tableSegment.isPrefixOf afterSchema then
    let tablePart := afterSchema.drop tableSegment.length
    if !tablePart.isEmpty && !(tablePart.contains '/') then
      some (schemaPart, tablePart)
    else none
  else none

/-- MCP error codes used by the handlers. -/
inductive McpErrorCode where
  | methodNotFound
  | invalidParams
  | internalError
deriving DecidableEq

/-- Resolution outcome of the read-resource handler before any gateway
call: which catalog path runs, or which protocol fault is thrown. -/
inductive RouteResult where
  | listTables (schemaName : List Char)
  | describeTable (schemaName tableName : List Char)
  | fault (code : McpErrorCode) (message : List Char)
deriving DecidableEq

/-- The routing logic of the ReadResource handler (lines 235-338) on the
already-`@`-stripped URI: the schema branch (starts with the prefix, no
`/table/` anywhere), else the table regex branch, else the default
rejection. -/
def routeCore (dbName uri : List Char) : RouteResult :=
  let pre := schemaUriPre dbName
  if pre.isPrefixOf uri && !(hasInfix tableSegment uri) then
    let schemaName := uri.drop pre.length
    if schemasToExpose.contains schemaName then
      RouteResult.listTables schemaName
    else
      RouteResult.fault .invalidParams ("Schema not exposed: ".data ++ schemaName)
  else
    match (if pre.isPrefixOf uri then matchTableRest (uri.drop pre.length) else none) with
    | some (schemaName, tableName) =>
        if schemasToExpose.contains schemaName then
          RouteResult.describeTable schemaName tableName
        else
          RouteResult.fault .invalidParams ("Schema not exposed: ".data ++ schemaName)
    | none =>
        RouteResult.fault .invalidParams
          ("Resource URI not found or format incorrect: ".data ++ uri)

/-- Full resolution of a requested URI: strip one `@`, then route. -/
def routeResource (dbName requestUri : List Char) : RouteResult :=
  routeCore dbName (strippedUri requestUri)

/-- `tableQuery` (lines 244-249), the exact template literal. -/
def tableQuery : String :=
  "\n              SELECT table_name\n              FROM information_schema.tables\n              WHERE table_schema = $1\n              ORDER BY table_name;\n            "

/-- `columnQuery` (lines 300-305), the exact template literal. -/
def columnQuery : String :=
  "\n              SELECT column_name, data_type, is_nullable\n              FROM information_schema.columns\n              WHERE table_schema = $1 AND table_name = $2\n              ORDER BY ordinal_position;\n            "

/-- One call into the pooled execution capability: the SQL text and the
bound parameter values (`pool.query(sql, params)`). -/
structure CatalogQuery where
  sql : String
  params : List (List Char)
deriving DecidableEq

/-- A result row, modelled as column-name/text-value pairs. -/
abbrev Row := List (List Char × List Char)

/-- `pg` query result: rowCount, rows, and field descriptors
(name, dataTypeID). -/
structure QueryResult where
  rowCount : Int
  rows : List Row
  fields : List (List Char × Int)
deriving DecidableEq

/-- The injected execution gateway (`this.pool.query`); a failure carries
the error message text. -/
abbrev Gateway := CatalogQuery → Except (List Char) QueryResult

/-- JS property access `row.key` on a result row; a missing column reads
as `undefined`, which stringifies to `"undefined"` in the template
literals that consume it. -/
def getField (row : Row) (key : List Char) : List Char :=
  match row.find? fun f => f.1 == key with
  | some f => f.2
  | none => "undefined".data

/-! ## JSON.stringify(·, null, 2) on the two shapes the handlers
serialise (arrays/objects of strings and integers). -/

/-- A literal `{` (kept out of string literals). -/
def lbrace : Char := Char.ofNat 123

/-- A literal `}`. -/
def rbrace : Char := Char.ofNat 125

/-- Lower-case hex digit. -/
def hexDigit (n : Nat) : Char :=
  if n < 10 then Char.ofNat (48 + n) else Char.ofNat (87 + n)

/-- JSON string escaping as `JSON.stringify` performs it. -/
def jsonEscapeChar (c : Char) : List Char :=
  if c == '"' then ['\\', '"']
  else if c == '\\' then ['\\', '\\']
  else if c == '\n' then ['\\', 'n']
  else if c == '\r' then ['\\', 'r']
  else if c == '\t' then ['\\', 't']
  else if c == '\x08' then ['\\', 'b']
  else if c == '\x0c' then ['\\', 'f']
  else if c.toNat < 32 then
    ['\\', 'u', '0', '0', hexDigit (c.toNat / 16), hexDigit (c.toNat % 16)]
  else [c]

/-- Escape a whole string body. -/
def jsonEscape (s : List Char) : List Char :=
  s.flatMap jsonEscapeChar

/-- A rendered JSON string literal. -/
def jsonStr (s : List Char) : List Char :=
  '"' :: (jsonEscape s ++ ['"'])

/-- `indent` spaces. -/
def spacesOf (n : Nat) : List Char :=
  List.replicate n ' '

/-- One `"key": value` member (value already rendered). -/
def jsonEntry (k v : List Char) : List Char :=
  jsonStr k ++ (':' :: ' ' :: v)

/-- The second and later members of an object, each on its own line. -/
def jsonMoreEntries (indent : Nat) : List (List Char × List Char) → List Char
  | [] => []
  | f :: fs => ',' :: '\n' :: (spacesOf indent ++ jsonEntry f.1 f.2 ++ jsonMoreEntries indent fs)

/-- A pretty-printed object at the given base indent (members' values
already rendered). -/
def jsonObj (indent : Nat) (fields : List (List Char × List Char)) : List Char :=
  match fields with
  | [] => [lbrace, rbrace]
  | f :: fs =>
      lbrace :: '\n' :: (spacesOf (indent + 2) ++ jsonEntry f.1 f.2 ++
        jsonMoreEntries (indent + 2) fs ++ ('\n' :: (spacesOf indent ++ [rbrace])))

/-- The second and later items of an array. -/
def jsonMoreItems (indent : Nat) : List (List Char) → List Char
  | [] => []
  | x :: xs => ',' :: '\n' :: (spacesOf indent ++ x ++ jsonMoreItems indent xs)

/-- A pretty-printed array at the given base indent (items already
rendered). -/
def jsonArr (indent : Nat) (items : List (List Char)) : List Char :=
  match items with
  | [] => ['[', ']']
  | x :: xs =>
      '[' :: '\n' :: (spacesOf (indent + 2) ++ x ++ jsonMoreItems (indent + 2) xs ++
        ('\n' :: (spacesOf indent ++ [']'])))

/-- A table resource descriptor as built at lines 253-261:
`{uri, name, description, mimeType}`. -/
structure ResourceDesc where
  uri : List Char
  name : List Char
  description : List Char
  mimeType : List Char
deriving DecidableEq

/-- `JSON.stringify(tableResources, null, 2)` (line 270). -/
def tableResourcesJson (resources : List ResourceDesc) : List Char :=
  jsonArr 0 (resources.map fun r =>
    jsonObj 2 [("uri".data, jsonStr r.uri), ("name".data, jsonStr r.name),
               ("description".data, jsonStr r.description),
               ("mimeType".data, jsonStr r.mimeType)])

/-- One element of the `contents` array a successful read returns. -/
structure ResourceContents where
  uri : List Char
  mimeType : List Char
  text : List Char
deriving DecidableEq

/-- Join lines with `\n` (`Array.prototype.join('\n')`, line 316). -/
def joinNewline : List (List Char) → List Char
  | [] => []
  | [x] => x
  | x :: xs => x ++ '\n' :: joinNewline xs

/-- The plain-text column listing built at lines 313-316:
`- ${column_name}: ${data_type} (NULLABLE|NOT NULL)` per row. -/
def schemaTextFor (schemaName tableName : List Char) (rows : List Row) : List Char :=
  "Schema for table: ".data ++ schemaName ++ ".".data ++ tableName ++ "\n\n".data ++
  joinNewline (rows.map fun col =>
    "- ".data ++ getField col "column_name".data ++ ": ".data ++
    getField col "data_type".data ++ " (".data ++
    (if getField col "is_nullable".data == "YES".data then "NULLABLE".data
     else "NOT NULL".data) ++ ")".data)

/-- The read-resource handler after `@`-stripping (lines 235-338): route,
then run the fixed catalog query through the gateway with the extracted
names as bound parameters, and shape the response; gateway failures on
this path become protocol-level faults (`McpError`), and an empty column
result is the `InvalidParams` fault of lines 308-310. -/
def readResourceCore (g : Gateway) (dbName uri : List Char) :
    Except (McpErrorCode × List Char) (List ResourceContents) :=
  match routeCore dbName uri with
  | .listTables schemaName =>
      match g ⟨tableQuery, [schemaName]⟩ with
      | .error e =>
          .error (.internalError,
            "Failed to list tables for schema ".data ++ schemaName ++ ": ".data ++ e)
      | .ok result =>
          let tableResources := result.rows.map fun row =>
            let tableName := getField row "table_name".data
            { uri := uri ++ "/table/".data ++ tableName
              name := tableName
              description := "Schema definition for table ".data ++ schemaName ++
                ".".data ++ tableName
              mimeType := "text/plain".data : ResourceDesc }
          .ok [{ uri := uri, mimeType := "application/json".data,
                 text := tableResourcesJson tableResources }]
  | .describeTable schemaName tableName =>
      match g ⟨columnQuery, [schemaName, tableName]⟩ with
      | .error e =>
          .error (.internalError,
            "Failed to read schema for table ".data ++ schemaName ++ ".".data ++
              tableName ++ ": ".data ++ e)
      | .ok result =>
          if result.rows.length == 0 then
            .error (.invalidParams,
              "Table not found or no columns: ".data ++ schemaName ++ ".".data ++ tableName)
          else
            .ok [{ uri := uri, mimeType := "text/plain".data,
                   text := schemaTextFor schemaName tableName result.rows }]
  | .fault code msg => .error (code, msg)

/-- The whole ReadResource request handler: strip one leading `@`, then
handle. -/
def readResource (g : Gateway) (dbName requestUri : List Char) :
    Except (McpErrorCode × List Char) (List ResourceContents) :=
  readResourceCore g dbName (strippedUri requestUri)

/-! ## Call-tool dispatcher (part_001 lines 141-205) -/

/-- A JavaScript value, as far as the duck-typed argument validation
looks at one. -/
inductive JsValue where
  | undefVal
  | nullVal
  | boolVal (b : Bool)
  | numVal (n : Int)
  | strVal (s : String)
  | arrVal (items : List JsValue)
  | objVal (fields : List (String × JsValue))

/-- JS property access `v.key`: a present object member, else
`undefined`. -/
def getProp (v : JsValue) (key : String) : JsValue :=
  match v with
  | .objVal fields =>
      match fields.find? fun f => f.1 == key with
      | some f => f.2
      | none => .undefVal
  | _ => .undefVal

/-- `typeof v === 'object'` (true for objects, arrays and `null`). -/
def typeofIsObject : JsValue → Bool
  | .nullVal => true
  | .arrVal _ => true
  | .objVal _ => true
  | _ => false

/-- `typeof v === 'string'`. -/
def typeofIsString : JsValue → Bool
  | .strVal _ => true
  | _ => false

/-- `v === null`. -/
def isNullJs : JsValue → Bool
  | .nullVal => true
  | _ => false

/-- `isValidQueryArgs` (lines 75-78): an object, not null, whose `sql`
member is a string. -/
def isValidQueryArgs (args : JsValue) : Bool :=
  typeofIsObject args && !(isNullJs args) && typeofIsString (getProp args "sql")

/-- The `sql` string of validated arguments (the TS type guard makes the
default branch unreachable whenever `isValidQueryArgs` holds). -/
def getSqlArg (args : JsValue) : String :=
  match getProp args "sql" with
  | .strVal s => s
  | _ => ""

/-- The tool response: the textual payload and the `isError` mark
(absent on success, modelled as `false`). -/
structure ToolCallResult where
  text : List Char
  isError : Bool
deriving DecidableEq

/-- The refusal text of lines 161-169. -/
def readOnlyRefusalText : String :=
  "Error: Only read-only queries are allowed. Your query appears to be a write operation or contains disallowed statements."

/-- `JSON.stringify({rowCount, rows, fields}, null, 2)` (lines 181-188),
on text-valued rows. -/
def queryResultJson (r : QueryResult) : List Char :=
  jsonObj 0 [("rowCount".data, (toString r.rowCount).data),
             ("rows".data, jsonArr 2 (r.rows.map fun row =>
                jsonObj 4 (row.map fun f => (f.1, jsonStr f.2)))),
             ("fields".data, jsonArr 2 (r.fields.map fun f =>
                jsonObj 4 [("name".data, jsonStr f.1),
                           ("dataTypeID".data, (toString f.2).data)]))]

/-- The CallTool request handler (lines 141-205): unknown tool and bad
arguments are protocol faults; a classifier rejection and a database
failure are success-shaped `isError` responses. -/
def callTool (g : Gateway) (toolName : String) (args : JsValue) :
    Except (McpErrorCode × List Char) ToolCallResult :=
  if toolName != "query" then
    .error (.methodNotFound, "Unknown tool: ".data ++ toolName.data)
  else if !(isValidQueryArgs args) then
    .error (.invalidParams, "Invalid query arguments: expected \x7b sql: string \x7d".data)
  else
    let sql := getSqlArg args
    if !(isReadOnlyQuery sql) then
      .ok { text := readOnlyRefusalText.data, isError := true }
    else
      match g ⟨sql, []⟩ with
      | .ok result => .ok { text := queryResultJson result, isError := false }
      | .error e => .ok { text := "Database error: ".data ++ e, isError := true }

/-! ## Router lemmas -/

/-- `takeWhile` over a satisfying block stops exactly at a failing
character. -/
lemma takeWhile_append_sat (p : Char → Bool) (s : List Char) (c : Char)
    (l : List Char) (hs : ∀ x ∈ s, p x = true) (hc : p c = false) :
    (s ++ c :: l).takeWhile p = s := by
  induction s with
  | nil => simp [List.takeWhile_cons, hc]
  | cons a s ih =>
    rw [List.cons_append, List.takeWhile_cons, hs a (by simp)]
    simp only [if_true]
    rw [ih fun y hy => hs y (by simp [hy])]

/-- `dropWhile` over a satisfying block stops exactly at a failing
character. -/
lemma dropWhile_append_sat (p : Char → Bool) (s : List Char) (c : Char)
    (l : List Char) (hs : ∀ x ∈ s, p x = true) (hc : p c = false) :
    (s ++ c :: l).dropWhile p = c :: l := by
  induction s with
  | nil => simp [List.dropWhile_cons, hc]
  | cons a s ih =>
    rw [List.cons_append, List.dropWhile_cons, hs a (by simp)]
    simp only [if_true]
    exact ih fun y hy => hs y (by simp [hy])

/-- A boolean-prefix decomposition. -/
lemma isPrefixOf_eq_append (pre uri : List Char) (h : pre.isPrefixOf uri = true) :
    uri = pre ++ uri.drop pre.length := by
  rw [List.isPrefixOf_iff_prefix] at h
  obtain ⟨w, hw⟩ := h
  rw [← hw, List.drop_left]

/-- `hasInfix` finds a middle occurrence. -/
lemma hasInfix_append (n a b : List Char) : hasInfix n (a ++ (n ++ b)) = true := by
  induction a with
  | nil =>
    rw [List.nil_append]
    cases n with
    | nil => cases b <;> simp [hasInfix, List.isPrefixOf]
    | cons x xs =>
      have hp : (x :: xs).isPrefixOf ((x :: xs) ++ b) = true := by
        rw [List.isPrefixOf_iff_prefix]
        exact List.prefix_append _ _
      rw [List.cons_append, hasInfix, ← List.cons_append, hp]
      rfl
  | cons c a ih =>
    rw [List.cons_append, hasInfix, ih]
    simp

/-- Completeness of the table-segment matcher: a well-formed remainder is
captured exactly. -/
lemma matchTableRest_complete (s t : List Char) (hse : s ≠ [])
    (hs : ∀ x ∈ s, (!(x == '/')) = true) (hte : t ≠ [])
    (ht : t.contains '/' = false) :
    matchTableRest (s ++ (tableSegment ++ t)) = some (s, t) := by
  have hseg : tableSegment ++ t = '/' :: ("table/".data ++ t) := rfl
  have htake : (s ++ (tableSegment ++ t)).takeWhile (fun c => !(c == '/')) = s := by
    rw [hseg]
    exact takeWhile_append_sat _ s '/' _ hs (by decide)
  have hdrop : (s ++ (tableSegment ++ t)).dropWhile (fun c => !(c == '/')) =
      tableSegment ++ t := by
    rw [hseg]
    exact dropWhile_append_sat _ s '/' _ hs (by decide)
  have h1 : s.isEmpty = false := by
    cases s with
    | nil => exact absurd rfl hse
    | cons a l => rfl
  have h2 : tableSegment.isPrefixOf (tableSegment ++ t) = true := by
    rw [List.isPrefixOf_iff_prefix]
    exact List.prefix_append _ _
  have h3 : (tableSegment ++ t).drop tableSegment.length = t := List.drop_left _ _
  have h4 : t.isEmpty = false := by
    cases t with
    | nil => exact absurd rfl hte
    | cons a l => rfl
  have ht' : '/' ∉ t := by
    intro hmem
    rw [show t.contains '/' = true from List.elem_eq_true_of_mem hmem] at ht
    exact Bool.noConfusion ht
  simp [matchTableRest, htake, hdrop, h1, h2, h3, h4, ht, ht']

/-- Soundness of the table-segment matcher: a successful capture
reconstructs the remainder. -/
lemma matchTableRest_sound (rest s t : List Char)
    (h : matchTableRest rest = some (s, t)) :
    rest = s ++ (tableSegment ++ t) := by
  simp only [matchTableRest] at h
  split at h
  · exact Option.noConfusion h
  · split at h
    · split at h
      · rename_i hpre hcond
        injection h with h'
        injection h' with hs ht
        subst hs
        subst ht
        obtain ⟨w, hw⟩ := List.isPrefixOf_iff_prefix.mp hpre
        have hwdrop :
            (rest.dropWhile fun c => !(c == '/')).drop tableSegment.length = w := by
          rw [← hw, List.drop_left]
        rw [hwdrop]
        conv_lhs => rw [← List.takeWhile_append_dropWhile
          (p := fun c => !(c == '/')) (l := rest)]
        rw [← hw]
      · exact Option.noConfusion h
    · exact Option.noConfusion h

/-- Exposed schema names are nonempty and contain no `/`. -/
lemma exposed_schema_chars :
    ∀ s ∈ schemasToExpose, s ≠ [] ∧ ∀ x ∈ s, (!(x == '/')) = true := by
  decide

/-- What a `listTables` resolution says about the URI: it is exactly the
schema prefix followed by the (exposed) schema name. -/
lemma routeCore_listTables_eq (dbName uri s : List Char)
    (h : routeCore dbName uri = .listTables s) :
    uri = schemaUriPre dbName ++ s ∧ s ∈ schemasToExpose := by
  simp only [routeCore] at h
  split at h
  · rename_i hcond
    split at h
    · rename_i hmem
      injection h with hs
      subst hs
      have hpre := (Bool.and_eq_true .. |>.mp hcond).1
      exact ⟨isPrefixOf_eq_append _ _ hpre, List.elem_iff.mp hmem⟩
    · exact RouteResult.noConfusion h
  · split at h
    · split at h
      · exact RouteResult.noConfusion h
      · exact RouteResult.noConfusion h
    · exact RouteResult.noConfusion h

/-- What a `describeTable` resolution says about the URI: it is exactly
the schema prefix, the (exposed) schema name, `/table/`, and the table
name. -/
lemma routeCore_describeTable_eq (dbName uri s t : List Char)
    (h : routeCore dbName uri = .describeTable s t) :
    uri = schemaUriPre dbName ++ (s ++ (tableSegment ++ t)) ∧ s ∈ schemasToExpose := by
  simp only [routeCore] at h
  split at h
  · split at h
    · exact RouteResult.noConfusion h
    · exact RouteResult.noConfusion h
  · rename_i hcond
    split at h
    · rename_i pair hmatch
      split at h
      · rename_i hmem
        injection h with hs ht
        subst hs
        subst ht
        have hpre : (schemaUriPre dbName).isPrefixOf uri = true := by
          by_contra hp
          rw [Bool.not_eq_true] at hp
          rw [if_neg (by simp [hp])] at hmatch
          exact Option.noConfusion hmatch
        rw [if_pos hpre] at hmatch
        have hrest := matchTableRest_sound _ _ _ hmatch
        constructor
        · rw [← hrest]
          exact isPrefixOf_eq_append _ _ hpre
        · exact List.elem_iff.mp hmem
      · exact RouteResult.noConfusion h
    · exact RouteResult.noConfusion h

/-- A URI that starts with the schema prefix starts with `a`, so the `@`
strip never touches it. -/
lemma strippedUri_pre_append (dbName X : List Char) :
    strippedUri (schemaUriPre dbName ++ X) = schemaUriPre dbName ++ X := by
  simp [strippedUri, schemaUriPre, baseUriSchema]

/-- C3: on the read-resource path, the SQL text handed to the gateway is
one of the two fixed catalog statements (`tableQuery`, `columnQuery`) —
the handler's result depends on the gateway only through those two call
shapes — and the values bound as parameters are exactly the schema / table
names parsed out of the request URI. (The handler contains no call to the
classifier: router-constructed queries bypass `isReadOnlyQuery`.) -/
theorem catalog_queries_fixed_and_parameterised :
    (∀ (dbName u : List Char) (g g' : Gateway),
        (∀ s, g ⟨tableQuery, [s]⟩ = g' ⟨tableQuery, [s]⟩) →
        (∀ s t, g ⟨columnQuery, [s, t]⟩ = g' ⟨columnQuery, [s, t]⟩) →
        readResource g dbName u = readResource g' dbName u) ∧
    (∀ dbName u s, routeResource dbName u = .listTables s →
        strippedUri u = schemaUriPre dbName ++ s) ∧
    (∀ dbName u s t, routeResource dbName u = .describeTable s t →
        strippedUri u = schemaUriPre dbName ++ (s ++ (tableSegment ++ t))) := by
  refine ⟨?_, ?_, ?_⟩
  · intro dbName u g g' h1 h2
    cases hr : routeCore dbName (strippedUri u) with
    | listTables s => simp only [readResource, readResourceCore, hr, h1 s]
    | describeTable s t => simp only [readResource, readResourceCore, hr, h2 s t]
    | fault c m => simp only [readResource, readResourceCore, hr]
  · intro dbName u s h
    exact (routeCore_listTables_eq dbName (strippedUri u) s h).1
  · intro dbName u s t h
    exact (routeCore_describeTable_eq dbName (strippedUri u) s t h).1

/-- C3 witness: two gateways that agree on the two catalog statements but
differ elsewhere produce the same read-resource response. -/
def gatewayA : Gateway := fun q =>
  if q.sql == tableQuery || q.sql == columnQuery then Except.ok ⟨0, [], []⟩
  else Except.error "a".data

/-- Second gateway for the C3 witness. -/
def gatewayB : Gateway := fun q =>
  if q.sql == tableQuery || q.sql == columnQuery then Except.ok ⟨0, [], []⟩
  else Except.ok ⟨1, [], []⟩

/-- C3 witness. -/
theorem catalog_queries_fixed_witness :
    readResource gatewayA "db".data "aws-pg://db/schema/public".data =
      readResource gatewayB "db".data "aws-pg://db/schema/public".data :=
  catalog_queries_fixed_and_parameterised.1 "db".data "aws-pg://db/schema/public".data
    gatewayA gatewayB (fun s => by simp [gatewayA, gatewayB])
    (fun s t => by simp [gatewayA, gatewayB])

/-- A gateway that always fails (for witnesses). -/
def stubGateway : Gateway := fun _ => Except.error "no database".data

/-- C5: an extractable schema name outside the exposed set rejects with
"Schema not exposed" (on both the schema-level and the table-level shape),
a URI matching neither shape rejects with the not-found message, and both
rejections are protocol-level faults (`Except.error`, i.e. thrown
`McpError`s), for every gateway. -/
theorem unexposed_and_unrecognised_are_faults :
    (∀ (g : Gateway) (dbName u uri : List Char),
        strippedUri u = uri →
        (schemaUriPre dbName).isPrefixOf uri = true →
        hasInfix tableSegment uri = false →
        uri.drop (schemaUriPre dbName).length ∉ schemasToExpose →
        readResource g dbName u =
          .error (.invalidParams,
            "Schema not exposed: ".data ++ uri.drop (schemaUriPre dbName).length)) ∧
    (∀ (g : Gateway) (dbName u uri s t : List Char),
        strippedUri u = uri →
        hasInfix tableSegment uri = true →
        (schemaUriPre dbName).isPrefixOf uri = true →
        matchTableRest (uri.drop (schemaUriPre dbName).length) = some (s, t) →
        s ∉ schemasToExpose →
        readResource g dbName u =
          .error (.invalidParams, "Schema not exposed: ".data ++ s)) ∧
    (∀ (g : Gateway) (dbName u uri : List Char),
        strippedUri u = uri →
        ((schemaUriPre dbName).isPrefixOf uri = true → hasInfix tableSegment uri = true) →
        ((schemaUriPre dbName).isPrefixOf uri = true →
          matchTableRest (uri.drop (schemaUriPre dbName).length) = none) →
        readResource g dbName u =
          .error (.invalidParams,
            "Resource URI not found or format incorrect: ".data ++ uri)) := by
  refine ⟨?_, ?_, ?_⟩
  · intro g dbName u uri huri hpre hinf hmem
    simp [readResource, huri, readResourceCore, routeCore, hpre, hinf, hmem]
  · intro g dbName u uri s t huri hinf hpre hmatch hmem
    simp [readResource, huri, readResourceCore, routeCore, hpre, hinf, hmatch, hmem]
  · intro g dbName u uri huri h1 h2
    cases hp : (schemaUriPre dbName).isPrefixOf uri with
    | false => simp [readResource, huri, readResourceCore, routeCore, hp]
    | true => simp [readResource, huri, readResourceCore, routeCore, hp, h1 hp, h2 hp]

/-- C5 witness: `aws-pg://db/schema/secret` rejects as a protocol fault
"Schema not exposed: secret". -/
theorem unexposed_witness :
    readResource stubGateway "db".data "aws-pg://db/schema/secret".data =
      .error (.invalidParams, "Schema not exposed: secret".data) :=
  unexposed_and_unrecognised_are_faults.1 stubGateway "db".data
    "aws-pg://db/schema/secret".data "aws-pg://db/schema/secret".data
    (by decide) (by decide) (by decide) (by decide)

/-- C6 (amended): every table URI produced by the schema-level read —
`strippedUri u ++ "/table/" ++ t` for a URI `u` that resolved to the
table listing of schema `s` — resolves to the describe-columns path bound
to exactly `(s, t)`, provided the table name `t` is nonempty and contains
no `/` character. -/
theorem produced_table_uri_resolves :
    ∀ (dbName u s t : List Char),
      routeResource dbName u = .listTables s →
      t ≠ [] → t.contains '/' = false →
      routeResource dbName (strippedUri u ++ "/table/".data ++ t) =
        .describeTable s t := by
  intro dbName u s t hroute hte ht
  obtain ⟨huri, hmem⟩ := routeCore_listTables_eq dbName (strippedUri u) s hroute
  obtain ⟨hse, hschars⟩ := exposed_schema_chars s hmem
  have hprod : strippedUri u ++ "/table/".data ++ t =
      schemaUriPre dbName ++ (s ++ (tableSegment ++ t)) := by
    rw [huri]
    show schemaUriPre dbName ++ s ++ tableSegment ++ t = _
    simp [List.append_assoc]
  rw [hprod]
  simp only [routeResource, strippedUri_pre_append]
  have hpre : (schemaUriPre dbName).isPrefixOf
      (schemaUriPre dbName ++ (s ++ (tableSegment ++ t))) = true := by
    rw [List.isPrefixOf_iff_prefix]
    exact List.prefix_append _ _
  have hinf : hasInfix tableSegment
      (schemaUriPre dbName ++ (s ++ (tableSegment ++ t))) = true := by
    have h := hasInfix_append tableSegment (schemaUriPre dbName ++ s) t
    rw [List.append_assoc] at h
    exact h
  have hdropped : (schemaUriPre dbName ++ (s ++ (tableSegment ++ t))).drop
      (schemaUriPre dbName).length = s ++ (tableSegment ++ t) := List.drop_left _ _
  have hmatch : matchTableRest (s ++ (tableSegment ++ t)) = some (s, t) :=
    matchTableRest_complete s t hse hschars hte ht
  simp [routeCore, hpre, hinf, hdropped, hmatch, hmem]

/-- C6 counterexample: for the table name `a/b` (a `/` in the name), the
produced URI does NOT resolve to the describe path for that table — it is
rejected as not found — so the round trip fails for that table name. -/
theorem produced_table_uri_counterexample :
    routeResource "db".data
        (strippedUri "aws-pg://db/schema/public".data ++ "/table/".data ++ "a/b".data) =
      .fault .invalidParams
        ("Resource URI not found or format incorrect: aws-pg://db/schema/public/table/a/b".data) := by
  decide

/-- C6 witness. -/
theorem produced_table_uri_witness :
    routeResource "db".data
        (strippedUri "aws-pg://db/schema/public".data ++ "/table/".data ++ "users".data) =
      .describeTable "public".data "users".data :=
  produced_table_uri_resolves "db".data "aws-pg://db/schema/public".data
    "public".data "users".data (by decide) (by decide) (by decide)

/-- C7 (amended): for every URI `u` that does not itself start with `@`,
resolving `"@" ++ u` equals resolving `u` (exactly one leading `@` is
stripped, and nothing else is preprocessed) — at the router level and for
the whole read-resource handler with any gateway. -/
theorem at_strip_resolves_identically :
    ∀ (dbName u : List Char) (g : Gateway),
      u.head? ≠ some '@' →
      routeResource dbName ('@' :: u) = routeResource dbName u ∧
      readResource g dbName ('@' :: u) = readResource g dbName u := by
  intro dbName u g h
  have h1 : strippedUri ('@' :: u) = u := by simp [strippedUri]
  have h2 : strippedUri u = u := by
    simp only [strippedUri]
    rw [if_neg h]
  exact ⟨by simp only [routeResource, h1, h2], by simp only [readResource, h1, h2]⟩

/-- C7 counterexample: for a URI that itself starts with `@`, prepending
another `@` changes the result (only one `@` is stripped), so the claim's
unrestricted quantification fails. -/
theorem at_strip_counterexample :
    ¬ (routeResource "db".data ('@' :: "@aws-pg://db/schema/public".data) =
        routeResource "db".data "@aws-pg://db/schema/public".data) := by
  decide

/-- C7 witness. -/
theorem at_strip_witness :
    routeResource "db".data ('@' :: "aws-pg://db/schema/public".data) =
      routeResource "db".data "aws-pg://db/schema/public".data :=
  (at_strip_resolves_identically "db".data "aws-pg://db/schema/public".data
    stubGateway (by decide)).1

/-- C8: on the read-resource path a gateway failure is re-wrapped as a
protocol-level `InternalError` fault carrying the wrapped failure text
(both on the list-tables and the describe-columns path) — unlike the
call-tool path, where the same gateway failure is returned as a
success-shaped `isError` response. -/
theorem resource_gateway_failure_is_fault :
    (∀ (g : Gateway) (dbName u s e : List Char),
        routeResource dbName u = .listTables s →
        g ⟨tableQuery, [s]⟩ = .error e →
        readResource g dbName u =
          .error (.internalError,
            "Failed to list tables for schema ".data ++ s ++ ": ".data ++ e)) ∧
    (∀ (g : Gateway) (dbName u s t e : List Char),
        routeResource dbName u = .describeTable s t →
        g ⟨columnQuery, [s, t]⟩ = .error e →
        readResource g dbName u =
          .error (.internalError,
            "Failed to read schema for table ".data ++ s ++ ".".data ++ t ++
              ": ".data ++ e)) ∧
    (∀ (g : Gateway) (args : JsValue) (e : List Char),
        isValidQueryArgs args = true →
        isReadOnlyQuery (getSqlArg args) = true →
        g ⟨getSqlArg args, []⟩ = .error e →
        callTool g "query" args = .ok ⟨"Database error: ".data ++ e, true⟩) := by
  refine ⟨?_, ?_, ?_⟩
  · intro g dbName u s e hroute hg
    simp only [routeResource] at hroute
    simp [readResource, readResourceCore, hroute, hg]
  · intro g dbName u s t e hroute hg
    simp only [routeResource] at hroute
    simp [readResource, readResourceCore, hroute, hg]
  · intro g args e hvalid hro hg
    simp [callTool, hvalid, hro, hg]

/-- A gateway that fails every call with a fixed message (C8 witness). -/
def failingGateway : Gateway := fun _ => Except.error "connection terminated".data

/-- C8 witness. -/
theorem resource_gateway_failure_witness :
    readResource failingGateway "db".data "aws-pg://db/schema/public".data =
      .error (.internalError,
        "Failed to list tables for schema public: connection terminated".data) :=
  resource_gateway_failure_is_fault.1 failingGateway "db".data
    "aws-pg://db/schema/public".data "public".data "connection terminated".data
    (by decide) rfl

/-- A gateway that returns a result with zero rows (C10 witness). -/
def emptyGateway : Gateway := fun _ => Except.ok ⟨0, [], []⟩

/-- C10: on a table-level read whose describe-columns query comes back
with zero rows, the handler raises the protocol-level `InvalidParams`
fault "Table not found or no columns" instead of returning an empty
column listing. -/
theorem empty_columns_is_not_found_fault :
    ∀ (g : Gateway) (dbName u s t : List Char) (r : QueryResult),
      routeResource dbName u = .describeTable s t →
      g ⟨columnQuery, [s, t]⟩ = .ok r →
      r.rows = [] →
      readResource g dbName u =
        .error (.invalidParams,
          "Table not found or no columns: ".data ++ s ++ ".".data ++ t) := by
  intro g dbName u s t r hroute hg hrows
  simp only [routeResource] at hroute
  simp [readResource, readResourceCore, hroute, hg, hrows]

/-- C10 witness. -/
theorem empty_columns_witness :
    readResource emptyGateway "db".data "aws-pg://db/schema/public/table/users".data =
      .error (.invalidParams, "Table not found or no columns: public.users".data) :=
  empty_columns_is_not_found_fault emptyGateway "db".data
    "aws-pg://db/schema/public/table/users".data "public".data "users".data
    ⟨0, [], []⟩ (by decide) rfl rfl

/-- C4: the call-tool dispatcher fails with a protocol-level "method not
found" fault for any tool other than `query`; with a protocol-level
"invalid params" fault when the arguments are not a mapping with a string
`sql`; responds with a success-shaped `isError` message stating the
read-only restriction when the classifier rejects; and responds with a
success-shaped `isError` message carrying the wrapped failure text when
the gateway fails — never a protocol fault in the last two cases. -/
theorem call_tool_dispatch :
    (∀ (g : Gateway) (toolName : String) (args : JsValue),
        toolName ≠ "query" →
        callTool g toolName args =
          .error (.methodNotFound, "Unknown tool: ".data ++ toolName.data)) ∧
    (∀ (g : Gateway) (args : JsValue),
        isValidQueryArgs args = false →
        callTool g "query" args =
          .error (.invalidParams,
            "Invalid query arguments: expected \x7b sql: string \x7d".data)) ∧
    (∀ (g : Gateway) (args : JsValue),
        isValidQueryArgs args = true →
        isReadOnlyQuery (getSqlArg args) = false →
        callTool g "query" args = .ok ⟨readOnlyRefusalText.data, true⟩) ∧
    (∀ (g : Gateway) (args : JsValue) (e : List Char),
        isValidQueryArgs args = true →
        isReadOnlyQuery (getSqlArg args) = true →
        g ⟨getSqlArg args, []⟩ = .error e →
        callTool g "query" args = .ok ⟨"Database error: ".data ++ e, true⟩) := by
  refine ⟨?_, ?_, ?_, ?_⟩
  · intro g toolName args h
    simp [callTool, h]
  · intro g args h
    simp [callTool, h]
  · intro g args hvalid hro
    simp [callTool, hvalid, hro]
  · intro g args e hvalid hro hg
    simp [callTool, hvalid, hro, hg]

/-- C4 witness: a DELETE statement through the `query` tool yields the
success-shaped read-only refusal with `isError = true`. -/
theorem call_tool_dispatch_witness :
    callTool stubGateway "query"
        (JsValue.objVal [("sql", JsValue.strVal "DELETE FROM users")]) =
      .ok ⟨readOnlyRefusalText.data, true⟩ :=
  call_tool_dispatch.2.2.1 stubGateway
    (JsValue.objVal [("sql", JsValue.strVal "DELETE FROM users")])
    (by decide) (by decide)

end AwsPg
